import Mathlib

/-!
Verification of the `handler_table` crate (src/src/lib.rs): a fixed-capacity
lock-free table mapping indices to zero-argument handlers.

Embedding notes.  The Rust `HandlerTable<N>` stores `N` words in
`[AtomicUsize; N]`; the word `0` is the "empty" sentinel and a nonzero word is
the address of a registered `fn()` pointer (Rust guarantees function pointers
are non-null, so a registered handler's address is never `0`).  We embed:

* a slot word as a `Nat`;
* the table as a `List Nat` (its length plays the role of the const generic `N`);
* a handler (`type Handler = fn()` stored via `handler as usize`) as a `Nat`
  together with a proof that it is nonzero;
* each atomic hardware primitive (`load`, `swap`, `compare_exchange`) as a pure
  function from the old cell value to (returned value, new cell value), and the
  three table operations as state-passing functions threading the table.

`handle` calls the loaded handler; the call itself has no effect on the table,
so we embed `handle` as returning the pair (returned `bool`, handler invoked —
`some h` exactly when the source calls `handler()`), together with the table
after the call.  Memory-ordering arguments of the atomics are recorded
separately as `MemOrder` constants, one per call site.
-/

namespace HandlerTableModel

/-- A registered handler: the address `handler as usize` of a Rust `fn()`
pointer, which is never null, hence nonzero. -/
abbrev Handler := {n : Nat // n ≠ 0}

/-- The slot array of `HandlerTable<N>`: the `N` `AtomicUsize` words, `0`
meaning empty. -/
abbrev HandlerTable := List Nat

/-- `AtomicUsize::new(0)` repeated `N` times: `HandlerTable::new`
(src/src/lib.rs lines 24-28). -/
def HandlerTable.new (N : Nat) : HandlerTable := List.replicate N 0

/-- `AtomicUsize::load`: returns the current value and leaves the cell as is. -/
def atomicLoad (a : Nat) : Nat × Nat := (a, a)

/-- `AtomicUsize::swap v`: returns the old value and stores `v`. -/
def atomicSwap (a v : Nat) : Nat × Nat := (a, v)

/-- `AtomicUsize::compare_exchange cur new`: on success returns `Ok(old)` and
stores `new`; on failure returns `Err(old)` and leaves the cell as is. -/
def atomicCompareExchange (a cur new : Nat) : Except Nat Nat × Nat :=
  if a = cur then (Except.ok a, new) else (Except.error a, a)

/-- `Result::is_ok` on the `compare_exchange` outcome. -/
def exceptIsOk : Except Nat Nat → Bool
  | Except.ok _ => true
  | Except.error _ => false

/-- `HandlerTable::register_handler` (src/src/lib.rs lines 38-45): rejects
`idx >= N`, otherwise a single `compare_exchange(0, handler as usize)` on slot
`idx`; returns `is_ok` and the table after the call. -/
def register_handler (t : HandlerTable) (idx : Nat) (h : Handler) :
    Bool × HandlerTable :=
  if t.length ≤ idx then (false, t)
  else
    let r := atomicCompareExchange (t.getD idx 0) 0 h.val
    (exceptIsOk r.1, t.set idx r.2)

/-- `HandlerTable::unregister_handler` (src/src/lib.rs lines 58-68): rejects
`idx >= N`, otherwise `swap(0)` on slot `idx`; if the old word was nonzero it
is transmuted back to the handler and returned, else `None`. -/
def unregister_handler (t : HandlerTable) (idx : Nat) :
    Option Handler × HandlerTable :=
  if t.length ≤ idx then (none, t)
  else
    let r := atomicSwap (t.getD idx 0) 0
    let t2 := t.set idx r.2
    if hv : r.1 ≠ 0 then (some ⟨r.1, hv⟩, t2) else (none, t2)

/-- `HandlerTable::handle` (src/src/lib.rs lines 84-96): rejects `idx >= N`,
otherwise `load` on slot `idx`; a nonzero word is transmuted to the handler and
called.  Result: ((returned bool, handler invoked), table after the call). -/
def handle (t : HandlerTable) (idx : Nat) :
    (Bool × Option Handler) × HandlerTable :=
  if t.length ≤ idx then ((false, none), t)
  else
    let r := atomicLoad (t.getD idx 0)
    let t2 := t.set idx r.2
    if hv : r.1 ≠ 0 then ((true, some ⟨r.1, hv⟩), t2) else ((false, none), t2)

/-- The result of the `(n+1)`-st of a sequence of repeated `handle t idx`
calls, each running on the table state the previous call left behind. -/
def iterateHandle (t : HandlerTable) (idx : Nat) :
    Nat → (Bool × Option Handler) × HandlerTable
  | 0 => handle t idx
  | n + 1 => handle (iterateHandle t idx n).2 idx

/-- The memory orderings of `core::sync::atomic::Ordering` used in the source. -/
inductive MemOrder
  | relaxed
  | acquire
  | release
  | acqRel
  | seqCst
deriving DecidableEq

/-- An ordering gives release (publish) semantics to the store side of an
atomic operation iff it is `Release`, `AcqRel` or `SeqCst`. -/
def MemOrder.isRelease : MemOrder → Bool
  | .release => true
  | .acqRel => true
  | .seqCst => true
  | _ => false

/-- An ordering gives acquire semantics to the load side of an atomic
operation iff it is `Acquire`, `AcqRel` or `SeqCst`. -/
def MemOrder.isAcquire : MemOrder → Bool
  | .acquire => true
  | .acqRel => true
  | .seqCst => true
  | _ => false

/-- The success ordering of the `compare_exchange` in `register_handler`
(src/src/lib.rs line 43): `Ordering::Acquire`. -/
def registerSuccessOrder : MemOrder := .acquire

/-- The failure ordering of the `compare_exchange` in `register_handler`
(src/src/lib.rs line 43): `Ordering::Relaxed`. -/
def registerFailureOrder : MemOrder := .relaxed

/-- The ordering of the `swap` in `unregister_handler`
(src/src/lib.rs line 62): `Ordering::Acquire`. -/
def unregisterSwapOrder : MemOrder := .acquire

/-- The ordering of the `load` in `handle` (src/src/lib.rs line 88):
`Ordering::Acquire`. -/
def handleLoadOrder : MemOrder := .acquire

/-! ### Helper lemmas on `List.set` / `List.getD` -/

theorem getD_set_self (t : List Nat) (idx v : Nat) (hidx : idx < t.length) :
    (t.set idx v).getD idx 0 = v := by
  induction t generalizing idx with
  | nil => simp at hidx
  | cons a as ih =>
    cases idx with
    | zero => rfl
    | succ n =>
      simp only [List.set_cons_succ, List.getD_cons_succ]
      exact ih n (by simpa using hidx)

theorem getD_set_ne (t : List Nat) (idx j v : Nat) (hne : j ≠ idx) :
    (t.set idx v).getD j 0 = t.getD j 0 := by
  induction t generalizing idx j with
  | nil => rfl
  | cons a as ih =>
    cases idx with
    | zero =>
      cases j with
      | zero => exact absurd rfl hne
      | succ m => rfl
    | succ n =>
      cases j with
      | zero => rfl
      | succ m =>
        simp only [List.set_cons_succ, List.getD_cons_succ]
        exact ih n m (fun e => hne (by rw [e]))

theorem set_getD_self (t : List Nat) (idx : Nat) (hidx : idx < t.length) :
    t.set idx (t.getD idx 0) = t := by
  induction t generalizing idx with
  | nil => simp at hidx
  | cons a as ih =>
    cases idx with
    | zero => rfl
    | succ n =>
      simp only [List.set_cons_succ, List.getD_cons_succ, List.cons.injEq,
        true_and]
      exact ih n (by simpa using hidx)

theorem getD_replicate_zero (N idx : Nat) :
    (List.replicate N 0).getD idx 0 = 0 := by
  induction N generalizing idx with
  | zero => rfl
  | succ n ih =>
    cases idx with
    | zero => rfl
    | succ m => simp [List.replicate_succ, ih m]

/-! ### Behaviour of each operation, case by case -/

theorem register_empty (t : HandlerTable) (idx : Nat) (h : Handler)
    (hlt : idx < t.length) (hz : t.getD idx 0 = 0) :
    register_handler t idx h = (true, t.set idx h.val) := by
  simp only [register_handler, atomicCompareExchange, exceptIsOk, hz,
    Nat.not_le.mpr hlt, if_false, if_true, ite_true, ite_false]

theorem register_occupied (t : HandlerTable) (idx : Nat) (h : Handler)
    (hlt : idx < t.length) (hnz : t.getD idx 0 ≠ 0) :
    register_handler t idx h = (false, t) := by
  simp only [register_handler, atomicCompareExchange, exceptIsOk,
    Nat.not_le.mpr hlt, hnz, if_false, if_true, ite_true, ite_false,
    set_getD_self t idx hlt]

theorem register_out_of_range (t : HandlerTable) (idx : Nat) (h : Handler)
    (hge : t.length ≤ idx) :
    register_handler t idx h = (false, t) := by
  simp [register_handler, hge]

theorem register_success_facts (t : HandlerTable) (idx : Nat) (h : Handler)
    (hreg : (register_handler t idx h).1 = true) :
    idx < t.length ∧ t.getD idx 0 = 0 ∧
      (register_handler t idx h).2 = t.set idx h.val := by
  by_cases hlen : t.length ≤ idx
  · rw [register_out_of_range t idx h hlen] at hreg
    exact absurd hreg (by simp)
  · have hlt : idx < t.length := Nat.not_le.mp hlen
    by_cases hz : t.getD idx 0 = 0
    · exact ⟨hlt, hz, by rw [register_empty t idx h hlt hz]⟩
    · rw [register_occupied t idx h hlt hz] at hreg
      exact absurd hreg (by simp)

theorem unregister_occupied (t : HandlerTable) (idx : Nat) (h : Handler)
    (hlt : idx < t.length) (hocc : t.getD idx 0 = h.val) :
    unregister_handler t idx = (some h, t.set idx 0) := by
  have hnz : t.getD idx 0 ≠ 0 := by rw [hocc]; exact h.property
  simp only [unregister_handler, Nat.not_le.mpr hlt, if_false, atomicSwap]
  rw [dif_pos hnz]
  exact congrArg (fun x => (some x, t.set idx 0)) (Subtype.ext hocc)

theorem unregister_none (t : HandlerTable) (idx : Nat)
    (hc : t.length ≤ idx ∨ t.getD idx 0 = 0) :
    unregister_handler t idx = (none, t) := by
  by_cases hlen : t.length ≤ idx
  · simp [unregister_handler, hlen]
  · have hlt : idx < t.length := Nat.not_le.mp hlen
    have hz : t.getD idx 0 = 0 := hc.resolve_left hlen
    simp only [unregister_handler, hlen, if_false, atomicSwap]
    rw [dif_neg (by simpa using hz)]
    rw [show t.set idx 0 = t from hz ▸ set_getD_self t idx hlt]

theorem handle_occupied (t : HandlerTable) (idx : Nat) (h : Handler)
    (hlt : idx < t.length) (hocc : t.getD idx 0 = h.val) :
    handle t idx = ((true, some h), t) := by
  have hnz : t.getD idx 0 ≠ 0 := by rw [hocc]; exact h.property
  simp only [handle, Nat.not_le.mpr hlt, if_false, atomicLoad]
  rw [dif_pos hnz, set_getD_self t idx hlt]
  exact congrArg (fun x => ((true, some x), t)) (Subtype.ext hocc)

theorem handle_none (t : HandlerTable) (idx : Nat)
    (hc : t.length ≤ idx ∨ t.getD idx 0 = 0) :
    handle t idx = ((false, none), t) := by
  by_cases hlen : t.length ≤ idx
  · simp [handle, hlen]
  · have hlt : idx < t.length := Nat.not_le.mp hlen
    have hz : t.getD idx 0 = 0 := hc.resolve_left hlen
    simp only [handle, hlen, if_false, atomicLoad]
    rw [dif_neg (by simpa using hz), set_getD_self t idx hlt]

theorem handle_keeps_state (t : HandlerTable) (idx : Nat) :
    (handle t idx).2 = t := by
  by_cases hlen : t.length ≤ idx
  · simp [handle, hlen]
  · have hlt : idx < t.length := Nat.not_le.mp hlen
    simp only [handle, hlen, if_false, atomicLoad]
    by_cases hz : t.getD idx 0 ≠ 0
    · rw [dif_pos hz, set_getD_self t idx hlt]
    · rw [dif_neg hz, set_getD_self t idx hlt]

/-! ### Claims -/

/-- Claim C1: if `register_handler idx h` succeeds, then `handle idx` returns
`true` and calls `h`, and every subsequent `handle idx` (no intervening
unregister) again returns `true` and calls `h` — invocation does not consume
the registration. -/
theorem C1_register_then_repeated_invoke (t : HandlerTable) (idx : Nat)
    (h : Handler) (hreg : (register_handler t idx h).1 = true) :
    ∀ n, iterateHandle (register_handler t idx h).2 idx n
      = ((true, some h), (register_handler t idx h).2) := by
  obtain ⟨hlt, hz, hstate⟩ := register_success_facts t idx h hreg
  have hlt2 : idx < (t.set idx h.val).length := by
    simpa using hlt
  have hocc : (t.set idx h.val).getD idx 0 = h.val :=
    getD_set_self t idx h.val hlt
  have hinv : handle (t.set idx h.val) idx
      = ((true, some h), t.set idx h.val) :=
    handle_occupied (t.set idx h.val) idx h hlt2 hocc
  intro n
  induction n with
  | zero =>
    show handle (register_handler t idx h).2 idx = _
    rw [hstate]
    exact hinv
  | succ m ih =>
    show handle (iterateHandle (register_handler t idx h).2 idx m).2 idx = _
    rw [ih]
    show handle (register_handler t idx h).2 idx = _
    rw [hstate]
    exact hinv

/-- Witness for C1 at a concrete input: table of capacity 4, slot 1,
handler address 5, third repeated invocation. -/
theorem C1_witness :
    iterateHandle (register_handler (HandlerTable.new 4) 1 ⟨5, by decide⟩).2 1 2
      = ((true, some ⟨5, by decide⟩),
         (register_handler (HandlerTable.new 4) 1 ⟨5, by decide⟩).2) :=
  C1_register_then_repeated_invoke (HandlerTable.new 4) 1 ⟨5, by decide⟩
    (by decide) 2

/-- Claim C2: registration is first-writer-wins.  On an Empty in-range slot the
first `register_handler idx h` returns `true`; a second
`register_handler idx h2` then returns `false` and leaves the table unchanged,
and a following `handle idx` runs `h`, never `h2`. -/
theorem C2_first_writer_wins (t : HandlerTable) (idx : Nat) (h h2 : Handler)
    (hlt : idx < t.length) (hz : t.getD idx 0 = 0) :
    (register_handler t idx h).1 = true ∧
      register_handler (register_handler t idx h).2 idx h2
        = (false, (register_handler t idx h).2) ∧
      (handle (register_handler t idx h).2 idx).1 = (true, some h) := by
  have h1 := register_empty t idx h hlt hz
  have hstate : (register_handler t idx h).2 = t.set idx h.val := by rw [h1]
  have hocc : (t.set idx h.val).getD idx 0 = h.val :=
    getD_set_self t idx h.val hlt
  have hlt2 : idx < (t.set idx h.val).length := by simpa using hlt
  have hnz : (t.set idx h.val).getD idx 0 ≠ 0 := by
    rw [hocc]; exact h.property
  refine ⟨by rw [h1], ?_, ?_⟩
  · rw [hstate]
    exact register_occupied (t.set idx h.val) idx h2 hlt2 hnz
  · rw [hstate, handle_occupied (t.set idx h.val) idx h hlt2 hocc]

/-- Witness for C2 at a concrete input: capacity 4, slot 1, handler addresses
5 and 7. -/
theorem C2_witness :
    (register_handler (HandlerTable.new 4) 1 ⟨5, by decide⟩).1 = true ∧
      register_handler (register_handler (HandlerTable.new 4) 1
          ⟨5, by decide⟩).2 1 ⟨7, by decide⟩
        = (false, (register_handler (HandlerTable.new 4) 1 ⟨5, by decide⟩).2) ∧
      (handle (register_handler (HandlerTable.new 4) 1 ⟨5, by decide⟩).2 1).1
        = (true, some ⟨5, by decide⟩) :=
  C2_first_writer_wins (HandlerTable.new 4) 1 ⟨5, by decide⟩ ⟨7, by decide⟩
    (by decide) (by decide)

/-- Claim C3: `unregister_handler idx` on an Occupied in-range slot returns
exactly the registered handler, empties the slot, and a following `handle idx`
returns `false` and runs nothing. -/
theorem C3_unregister_returns_handler (t : HandlerTable) (idx : Nat)
    (h : Handler) (hlt : idx < t.length) (hocc : t.getD idx 0 = h.val) :
    unregister_handler t idx = (some h, t.set idx 0) ∧
      (handle (t.set idx 0) idx).1 = (false, none) := by
  refine ⟨unregister_occupied t idx h hlt hocc, ?_⟩
  have hz : ((t.set idx 0) : List Nat).getD idx 0 = 0 :=
    getD_set_self t idx 0 hlt
  rw [handle_none (t.set idx 0) idx (Or.inr hz)]

/-- Witness for C3 at a concrete input: capacity 4, slot 2 holding handler
address 9. -/
theorem C3_witness :
    unregister_handler ((HandlerTable.new 4).set 2 9) 2
        = (some ⟨9, by decide⟩, ((HandlerTable.new 4).set 2 9).set 2 0) ∧
      (handle (((HandlerTable.new 4).set 2 9).set 2 0) 2).1 = (false, none) :=
  C3_unregister_returns_handler ((HandlerTable.new 4).set 2 9) 2
    ⟨9, by decide⟩ (by decide) (by decide)

/-- Claim C4: for `idx ≥ N`, `register_handler` returns `false`,
`unregister_handler` returns `none`, `handle` returns `false` and runs
nothing, and each call leaves the whole table unchanged. -/
theorem C4_out_of_range (t : HandlerTable) (idx : Nat) (h : Handler)
    (hge : t.length ≤ idx) :
    register_handler t idx h = (false, t) ∧
      unregister_handler t idx = (none, t) ∧
      handle t idx = ((false, none), t) :=
  ⟨register_out_of_range t idx h hge,
   unregister_none t idx (Or.inl hge),
   handle_none t idx (Or.inl hge)⟩

/-- Witness for C4 at a concrete input: capacity 2, index 2, handler
address 5, with one slot occupied. -/
theorem C4_witness :
    register_handler ((HandlerTable.new 2).set 0 3) 2 ⟨5, by decide⟩
        = (false, (HandlerTable.new 2).set 0 3) ∧
      unregister_handler ((HandlerTable.new 2).set 0 3) 2
        = (none, (HandlerTable.new 2).set 0 3) ∧
      handle ((HandlerTable.new 2).set 0 3) 2
        = ((false, none), (HandlerTable.new 2).set 0 3) :=
  C4_out_of_range ((HandlerTable.new 2).set 0 3) 2 ⟨5, by decide⟩ (by decide)

/-- Claim C5: `unregister_handler idx` on an Empty slot or an out-of-range
index returns `none` and leaves the entire table unchanged. -/
theorem C5_unregister_failure_atomic (t : HandlerTable) (idx : Nat)
    (hc : t.length ≤ idx ∨ t.getD idx 0 = 0) :
    unregister_handler t idx = (none, t) :=
  unregister_none t idx hc

/-- Witness for C5 at a concrete input: capacity 4 with slot 0 occupied,
unregistering the empty slot 1. -/
theorem C5_witness :
    unregister_handler ((HandlerTable.new 4).set 0 3) 1
      = (none, (HandlerTable.new 4).set 0 3) :=
  C5_unregister_failure_atomic ((HandlerTable.new 4).set 0 3) 1
    (Or.inr (by decide))

/-- Claim C6: a freshly constructed table has all slots Empty: for every
`N > 0` and `idx < N`, `handle idx` on `HandlerTable.new N` returns `false`,
runs nothing, and leaves the table as constructed. -/
theorem C6_fresh_table_all_empty (N idx : Nat) (_hlt : idx < N) :
    handle (HandlerTable.new N) idx = ((false, none), HandlerTable.new N) :=
  handle_none (HandlerTable.new N) idx (Or.inr (getD_replicate_zero N idx))

/-- Witness for C6 at a concrete input: capacity 3, slot 0. -/
theorem C6_witness :
    handle (HandlerTable.new 3) 0 = ((false, none), HandlerTable.new 3) :=
  C6_fresh_table_all_empty 3 0 (by decide)

/-- Claim C7: `handle` never changes state: for every table and every index,
in range or not, the table after the call is exactly the table before it. -/
theorem C7_invoke_preserves_state (t : HandlerTable) (idx : Nat) :
    (handle t idx).2 = t :=
  handle_keeps_state t idx

/-- Claim C8: per-slot state machine.  Every slot word is `0` (Empty) or
nonzero (Occupied); `register_handler` changes a slot only from `0` to the
handler's address (and then returns `true`); `unregister_handler` changes a
slot only from a nonzero word to `0` (and then returns that word's handler);
`handle` changes nothing; a register on an occupied in-range slot is a no-op
returning `false`. -/
theorem C8_slot_state_machine (t : HandlerTable) (idx j : Nat) (h : Handler) :
    (t.getD j 0 = 0 ∨ t.getD j 0 ≠ 0) ∧
      ((register_handler t idx h).2.getD j 0 = t.getD j 0 ∨
        (j = idx ∧ t.getD j 0 = 0 ∧ (register_handler t idx h).1 = true ∧
          (register_handler t idx h).2.getD j 0 = h.val)) ∧
      ((unregister_handler t idx).2.getD j 0 = t.getD j 0 ∨
        (j = idx ∧ t.getD j 0 ≠ 0 ∧
          Option.map Subtype.val (unregister_handler t idx).1
            = some (t.getD j 0) ∧
          (unregister_handler t idx).2.getD j 0 = 0)) ∧
      (handle t idx).2 = t ∧
      (idx < t.length → t.getD idx 0 ≠ 0 →
        register_handler t idx h = (false, t)) := by
  refine ⟨eq_or_ne (t.getD j 0) 0, ?_, ?_, handle_keeps_state t idx,
    fun hlt hnz => register_occupied t idx h hlt hnz⟩
  · by_cases hlen : t.length ≤ idx
    · rw [register_out_of_range t idx h hlen]
      exact Or.inl rfl
    · have hlt : idx < t.length := Nat.not_le.mp hlen
      by_cases hz : t.getD idx 0 = 0
      · rw [register_empty t idx h hlt hz]
        by_cases hji : j = idx
        · subst hji
          exact Or.inr ⟨rfl, hz, rfl, getD_set_self t j h.val hlt⟩
        · exact Or.inl (getD_set_ne t idx j h.val hji)
      · rw [register_occupied t idx h hlt hz]
        exact Or.inl rfl
  · by_cases hlen : t.length ≤ idx
    · rw [unregister_none t idx (Or.inl hlen)]
      exact Or.inl rfl
    · have hlt : idx < t.length := Nat.not_le.mp hlen
      by_cases hz : t.getD idx 0 = 0
      · rw [unregister_none t idx (Or.inr hz)]
        exact Or.inl rfl
      · have hu := unregister_occupied t idx ⟨t.getD idx 0, hz⟩ hlt rfl
        rw [hu]
        by_cases hji : j = idx
        · subst hji
          exact Or.inr ⟨rfl, hz, rfl, getD_set_self t j 0 hlt⟩
        · exact Or.inl (getD_set_ne t idx j 0 hji)

/-- Witness for C8 at a concrete input: capacity 3 with slot 1 occupied,
operations on index 1 observed at slot 1, handler address 5. -/
theorem C8_witness :
    (((HandlerTable.new 3).set 1 4).getD 1 0 = 0 ∨
        ((HandlerTable.new 3).set 1 4).getD 1 0 ≠ 0) ∧
      ((register_handler ((HandlerTable.new 3).set 1 4) 1
            ⟨5, by decide⟩).2.getD 1 0
          = ((HandlerTable.new 3).set 1 4).getD 1 0 ∨
        (1 = 1 ∧ ((HandlerTable.new 3).set 1 4).getD 1 0 = 0 ∧
          (register_handler ((HandlerTable.new 3).set 1 4) 1
              ⟨5, by decide⟩).1 = true ∧
          (register_handler ((HandlerTable.new 3).set 1 4) 1
              ⟨5, by decide⟩).2.getD 1 0 = (⟨5, by decide⟩ : Handler).val)) ∧
      ((unregister_handler ((HandlerTable.new 3).set 1 4) 1).2.getD 1 0
          = ((HandlerTable.new 3).set 1 4).getD 1 0 ∨
        (1 = 1 ∧ ((HandlerTable.new 3).set 1 4).getD 1 0 ≠ 0 ∧
          Option.map Subtype.val
              (unregister_handler ((HandlerTable.new 3).set 1 4) 1).1
            = some (((HandlerTable.new 3).set 1 4).getD 1 0) ∧
          (unregister_handler ((HandlerTable.new 3).set 1 4) 1).2.getD 1 0
            = 0)) ∧
      (handle ((HandlerTable.new 3).set 1 4) 1).2
        = (HandlerTable.new 3).set 1 4 ∧
      (1 < ((HandlerTable.new 3).set 1 4 : List Nat).length →
        ((HandlerTable.new 3).set 1 4).getD 1 0 ≠ 0 →
        register_handler ((HandlerTable.new 3).set 1 4) 1 ⟨5, by decide⟩
          = (false, (HandlerTable.new 3).set 1 4)) :=
  C8_slot_state_machine ((HandlerTable.new 3).set 1 4) 1 1 ⟨5, by decide⟩

/-- Claim C9: the source publishes the handler on the successful
`compare_exchange` with `Ordering::Acquire`, which has no release semantics,
while the reads in `handle` and `unregister_handler` do use acquire ordering:
the release-style publish the spec requires is absent. -/
theorem C9_register_publish_ordering :
    registerSuccessOrder = MemOrder.acquire ∧
      registerSuccessOrder.isRelease = false ∧
      registerFailureOrder = MemOrder.relaxed ∧
      handleLoadOrder.isAcquire = true ∧
      unregisterSwapOrder.isAcquire = true :=
  ⟨rfl, rfl, rfl, rfl, rfl⟩

/-- Claim C10: slot isolation.  For every operation on index `idx`, every
other slot `j ≠ idx` holds exactly the same word after the call as before. -/
theorem C10_slot_isolation (t : HandlerTable) (idx j : Nat) (h : Handler)
    (hne : j ≠ idx) :
    (register_handler t idx h).2.getD j 0 = t.getD j 0 ∧
      (unregister_handler t idx).2.getD j 0 = t.getD j 0 ∧
      (handle t idx).2.getD j 0 = t.getD j 0 := by
  refine ⟨?_, ?_, by rw [handle_keeps_state t idx]⟩
  · by_cases hlen : t.length ≤ idx
    · rw [register_out_of_range t idx h hlen]
    · have hlt : idx < t.length := Nat.not_le.mp hlen
      by_cases hz : t.getD idx 0 = 0
      · rw [register_empty t idx h hlt hz]
        exact getD_set_ne t idx j h.val hne
      · rw [register_occupied t idx h hlt hz]
  · by_cases hlen : t.length ≤ idx
    · rw [unregister_none t idx (Or.inl hlen)]
    · have hlt : idx < t.length := Nat.not_le.mp hlen
      by_cases hz : t.getD idx 0 = 0
      · rw [unregister_none t idx (Or.inr hz)]
      · rw [unregister_occupied t idx ⟨t.getD idx 0, hz⟩ hlt rfl]
        exact getD_set_ne t idx j 0 hne

/-- Witness for C10 at a concrete input: capacity 3 with slot 2 occupied,
operations on index 1 observed at slot 2, handler address 5. -/
theorem C10_witness :
    (register_handler ((HandlerTable.new 3).set 2 9) 1
          ⟨5, by decide⟩).2.getD 2 0
        = ((HandlerTable.new 3).set 2 9).getD 2 0 ∧
      (unregister_handler ((HandlerTable.new 3).set 2 9) 1).2.getD 2 0
        = ((HandlerTable.new 3).set 2 9).getD 2 0 ∧
      (handle ((HandlerTable.new 3).set 2 9) 1).2.getD 2 0
        = ((HandlerTable.new 3).set 2 9).getD 2 0 :=
  C10_slot_isolation ((HandlerTable.new 3).set 2 9) 1 2 ⟨5, by decide⟩
    (by decide)

end HandlerTableModel
